import Mathlib

/-!
Shallow embedding of the number-guessing game in `src/bin/main.rs`:
the round state machine (`check_guess`), the leaderboard store
(`load_high_scores` / `save_score`), and the CLI input validator
(`get_guess`).

Modelling conventions:
* `u32` values are `Nat`; parsing enforces the `u32` bound explicitly and
  all other arithmetic here is bounded and overflow-free;
* the `f64` elapsed seconds are `Rat`: on the non-NaN finite doubles this
  code produces, the comparison used by the leaderboard comparator agrees
  with the rational order;
* timestamps (`Instant`, `DateTime<Local>`) are abstract: the elapsed time
  and the wall-clock date are injected as parameters;
* the file system is a `Store` value threaded through the functions;
* the UI message strings are an inductive type with one constructor per
  distinct format string of the source, carrying the interpolated values;
* raw input text is a `List Char` (the character sequence of the string).
-/

/-- One persisted high score (struct `HighScore`, main.rs:11-17).
`date` is the `DateTime<Local>` value, modelled as an abstract `Nat` tick. -/
structure HighScore where
  attempts : Nat
  seconds : Rat
  difficulty : Nat
  date : Nat
  deriving DecidableEq

/-- The distinct message strings assigned to `self.message` in main.rs,
one constructor per format string, carrying the interpolated values. -/
inductive GameMessage where
  | prompt (bound : Nat)
  | outOfRange (bound : Nat)
  | higher
  | lower
  | correct (attempts : Nat) (seconds : Rat)
  | invalidNumber
  deriving DecidableEq

/-- Contents of `highscores.json` as seen through `fs::read_to_string` plus
`serde_json::from_str` (main.rs:244-251): the file may be absent (io
NotFound), unreadable for another io reason, readable but not
deserializable, or hold a list of scores. -/
inductive FileState where
  | absent
  | unreadable
  | corrupt
  | scores (l : List HighScore)
  deriving DecidableEq

/-- The io errors the store functions surface. -/
inductive IoErr where
  | readFailed
  | corruptStore
  | writeFailed
  deriving DecidableEq

/-- The durable side of the world: the highscore file, plus whether a
`fs::write` to it would succeed. -/
structure Store where
  file : FileState
  writable : Bool
  deriving DecidableEq

/-- `load_high_scores` (main.rs:244-251): an absent file loads as the empty
list, a deserialization failure is `corruptStore` (io InvalidData), any
other read error propagates. -/
def load_high_scores (st : Store) : Except IoErr (List HighScore) :=
  match st.file with
  | FileState.absent => Except.ok []
  | FileState.unreadable => Except.error IoErr.readFailed
  | FileState.corrupt => Except.error IoErr.corruptStore
  | FileState.scores l => Except.ok l

/-- `Ord::cmp` on `u32`. -/
def cmpNat (a b : Nat) : Ordering :=
  if a < b then Ordering.lt else if a = b then Ordering.eq else Ordering.gt

/-- The `f64` comparison on the seconds field, total on the non-NaN values
modelled here. -/
def cmpSeconds (a b : Rat) : Ordering :=
  if a < b then Ordering.lt else if a = b then Ordering.eq else Ordering.gt

/-- The comparator passed to `sort_by` in `save_score` (main.rs:259-262):
compare `attempts`, then compare `seconds`. -/
def cmpScore (a b : HighScore) : Ordering :=
  (cmpNat a.attempts b.attempts).then (cmpSeconds a.seconds b.seconds)

/-- The non-strict order induced by the comparator: `a` sorts no later than
`b` exactly when the comparator does not say Greater. -/
def scoreLe (a b : HighScore) : Prop := cmpScore a b ≠ Ordering.gt

instance : DecidableRel scoreLe := fun a b =>
  inferInstanceAs (Decidable (cmpScore a b ≠ Ordering.gt))

/-- `scores.sort_by(..)` (main.rs:259-262): `Vec::sort_by` is the stable
sort by the comparator; the stable sort by a total preorder is unique, and
is embedded here as insertion sort. -/
def sortScores (l : List HighScore) : List HighScore := List.insertionSort scoreLe l

/-- `save_score` (main.rs:254-271): load, push, stable sort by
(attempts, seconds), truncate to 5, write. `serde_json::to_string_pretty`
cannot fail on this data, so serialization always succeeds in the model;
`fs::write` fails exactly when the store is not writable. The result is the
`io::Result<()>` of the Rust function, paired with the store after the
call. -/
def save_score (score : HighScore) (st : Store) : Except IoErr Unit × Store :=
  match load_high_scores st with
  | Except.error e => (Except.error e, st)
  | Except.ok scores =>
    let sorted := sortScores (scores ++ [score])
    let top5 := sorted.take 5
    if st.writable then (Except.ok (), { st with file := FileState.scores top5 })
    else (Except.error IoErr.writeFailed, st)

/-- Strip one leading plus sign, as `u32::from_str` accepts. -/
def stripPlus (cs : List Char) : List Char :=
  match cs with
  | c :: rest => if c = '+' then rest else c :: rest
  | [] => []

/-- The digits of a literal folded into a value (the accumulation loop of
`u32::from_str`). -/
def digitsVal (cs : List Char) : Nat :=
  cs.foldl (fun n c => n * 10 + (c.toNat - 48)) 0

/-- `str::parse::<u32>` (Rust `u32::from_str`): an optional leading plus
sign, then one or more ASCII digits, and the value must fit in `u32`.
A minus sign, any other non-digit, or an empty string fails. -/
def parse_u32 (cs : List Char) : Option Nat :=
  let ds := stripPlus cs
  if ds.isEmpty then none
  else if ds.all (fun c => c.isDigit) then
    if digitsVal ds < 2 ^ 32 then some (digitsVal ds) else none
  else none

/-- The application state (struct `GuessingGame`, main.rs:19-28), without
the `start_time` field: elapsed time is injected into `check_guess`. -/
structure GuessingGame where
  secret_number : Nat
  current_guess : List Char
  message : GameMessage
  attempts : Nat
  difficulty : Nat
  game_won : Bool
  high_scores : List HighScore
  deriving DecidableEq

/-- `new_game` (main.rs:46-53). The freshly drawn secret
(`gen_range(1..=difficulty)`) is injected as the `secret` argument. -/
def new_game (g : GuessingGame) (secret : Nat) : GuessingGame :=
  { g with
    secret_number := secret
    current_guess := []
    message := GameMessage.prompt g.difficulty
    attempts := 0
    game_won := false }

/-- `check_guess` (main.rs:55-94). `elapsed` is `start_time.elapsed()` in
seconds and `now` the current date, both injected. Returns the updated
game state and the store after the call (the store only changes on the
winning branch, through `save_score`). -/
def check_guess (g : GuessingGame) (st : Store) (elapsed : Rat) (now : Nat) :
    GuessingGame × Store :=
  match parse_u32 g.current_guess with
  | some guess =>
    if g.game_won then ({ g with current_guess := [] }, st)
    else
      if guess < 1 ∨ guess > g.difficulty then
        ({ g with attempts := g.attempts + 1,
                  message := GameMessage.outOfRange g.difficulty,
                  current_guess := [] }, st)
      else
        match cmpNat guess g.secret_number with
        | Ordering.lt =>
          ({ g with attempts := g.attempts + 1, message := GameMessage.higher,
                    current_guess := [] }, st)
        | Ordering.gt =>
          ({ g with attempts := g.attempts + 1, message := GameMessage.lower,
                    current_guess := [] }, st)
        | Ordering.eq =>
          let score : HighScore :=
            { attempts := g.attempts + 1, seconds := elapsed,
              difficulty := g.difficulty, date := now }
          let saved := save_score score st
          let hs :=
            match saved.1 with
            | Except.ok _ =>
              match load_high_scores saved.2 with
              | Except.ok l => l
              | Except.error _ => []
            | Except.error _ => g.high_scores
          ({ g with attempts := g.attempts + 1, game_won := true,
                    message := GameMessage.correct (g.attempts + 1) elapsed,
                    high_scores := hs, current_guess := [] }, saved.2)
  | none => ({ g with message := GameMessage.invalidNumber, current_guess := [] }, st)

/-- One GUI interaction: the player types `input` into the text field and
presses Guess, so `current_guess` holds `input` when `check_guess` runs. -/
def submit_guess (g : GuessingGame) (st : Store) (input : List Char)
    (elapsed : Rat) (now : Nat) : GuessingGame × Store :=
  check_guess { g with current_guess := input } st elapsed now

/-- A sequence of guess submissions, each with its input text, elapsed time
and date. -/
def play_guesses (g : GuessingGame) (st : Store) :
    List (List Char × Rat × Nat) → GuessingGame × Store
  | [] => (g, st)
  | (input, elapsed, now) :: rest =>
    let step := submit_guess g st input elapsed now
    play_guesses step.1 step.2 rest

/-- Rust `str::trim` on the ASCII whitespace relevant here: drop leading
and trailing whitespace characters. -/
def trimChars (cs : List Char) : List Char :=
  ((cs.dropWhile Char.isWhitespace).reverse.dropWhile Char.isWhitespace).reverse

/-- The two errors `get_guess` can build (both io InvalidInput): the
parse-failure message and the range-failure message. -/
inductive GuessErr where
  | invalidFormat
  | outOfRange
  deriving DecidableEq

/-- What one `get_guess` call does with a line of input: exit the process
on the quit sentinel, otherwise the `io::Result<u32>` flattened into
success and error cases. -/
inductive GetGuessResult where
  | quit
  | ok (n : Nat)
  | err (e : GuessErr)
  deriving DecidableEq

/-- `get_guess` (main.rs:185-212) applied to the line read from stdin:
trim and lowercase, check the quit sentinel, then parse as `u32` and
range-check against `[1, 100]`. -/
def get_guess (line : List Char) : GetGuessResult :=
  let input := (trimChars line).map Char.toLower
  if input = "q".data ∨ input = "quit".data then GetGuessResult.quit
  else
    match parse_u32 input with
    | none => GetGuessResult.err GuessErr.invalidFormat
    | some n =>
      if 1 ≤ n ∧ n ≤ 100 then GetGuessResult.ok n
      else GetGuessResult.err GuessErr.outOfRange

/-- The ranking key of the specification: lexicographic
(attempts ascending, elapsed seconds ascending). -/
def keyLe (a b : HighScore) : Prop :=
  a.attempts < b.attempts ∨ (a.attempts = b.attempts ∧ a.seconds ≤ b.seconds)

/-- Sorted ascending by the lexicographic key, in the sense of the
specification. -/
def SortedByKey (l : List HighScore) : Prop := l.Pairwise keyLe

/-- The sort key of one record. -/
def scoreKey (s : HighScore) : Nat × Rat := (s.attempts, s.seconds)

theorem cmpNat_lt {a b : Nat} (h : a < b) : cmpNat a b = Ordering.lt := by
  unfold cmpNat
  rw [if_pos h]

theorem cmpNat_eq {a b : Nat} (h : a = b) : cmpNat a b = Ordering.eq := by
  unfold cmpNat
  rw [if_neg (by omega), if_pos h]

theorem cmpNat_gt {a b : Nat} (h : b < a) : cmpNat a b = Ordering.gt := by
  unfold cmpNat
  rw [if_neg (by omega), if_neg (by omega)]

theorem cmpSeconds_lt {a b : Rat} (h : a < b) : cmpSeconds a b = Ordering.lt := by
  unfold cmpSeconds
  rw [if_pos h]

theorem cmpSeconds_eq {a b : Rat} (h : a = b) : cmpSeconds a b = Ordering.eq := by
  unfold cmpSeconds
  rw [if_neg (by rw [h]; exact lt_irrefl b), if_pos h]

theorem cmpSeconds_gt {a b : Rat} (h : b < a) : cmpSeconds a b = Ordering.gt := by
  unfold cmpSeconds
  rw [if_neg (not_lt.mpr (le_of_lt h)), if_neg (ne_of_gt h)]

theorem scoreLe_iff_keyLe (a b : HighScore) : scoreLe a b ↔ keyLe a b := by
  unfold scoreLe keyLe cmpScore
  rcases Nat.lt_trichotomy a.attempts b.attempts with h | h | h
  · rw [cmpNat_lt h]
    simp [Ordering.then]
    exact Or.inl h
  · rw [cmpNat_eq h]
    rcases lt_trichotomy a.seconds b.seconds with h2 | h2 | h2
    · rw [cmpSeconds_lt h2]
      simp [Ordering.then]
      exact Or.inr ⟨h, le_of_lt h2⟩
    · rw [cmpSeconds_eq h2]
      simp [Ordering.then]
      exact Or.inr ⟨h, le_of_eq h2⟩
    · rw [cmpSeconds_gt h2]
      simp [Ordering.then]
      exact ⟨by omega, fun _ => h2⟩
  · rw [cmpNat_gt h]
    simp [Ordering.then]
    exact ⟨by omega, fun hc => absurd hc (by omega)⟩

theorem keyLe_total (a b : HighScore) : keyLe a b ∨ keyLe b a := by
  unfold keyLe
  rcases Nat.lt_trichotomy a.attempts b.attempts with h | h | h
  · exact Or.inl (Or.inl h)
  · rcases le_total a.seconds b.seconds with h2 | h2
    · exact Or.inl (Or.inr ⟨h, h2⟩)
    · exact Or.inr (Or.inr ⟨h.symm, h2⟩)
  · exact Or.inr (Or.inl h)

theorem keyLe_trans (a b c : HighScore) (hab : keyLe a b) (hbc : keyLe b c) :
    keyLe a c := by
  unfold keyLe at *
  rcases hab with h | ⟨h1, h2⟩ <;> rcases hbc with h3 | ⟨h3, h4⟩
  · exact Or.inl (by omega)
  · exact Or.inl (by omega)
  · exact Or.inl (by omega)
  · exact Or.inr ⟨by omega, le_trans h2 h4⟩

theorem scoreLe_total (a b : HighScore) : scoreLe a b ∨ scoreLe b a := by
  rcases keyLe_total a b with h | h
  · exact Or.inl ((scoreLe_iff_keyLe a b).mpr h)
  · exact Or.inr ((scoreLe_iff_keyLe b a).mpr h)

theorem scoreLe_trans (a b c : HighScore) (hab : scoreLe a b) (hbc : scoreLe b c) :
    scoreLe a c :=
  (scoreLe_iff_keyLe a c).mpr
    (keyLe_trans a b c ((scoreLe_iff_keyLe a b).mp hab) ((scoreLe_iff_keyLe b c).mp hbc))

theorem sortedByKey_sortScores (l : List HighScore) : SortedByKey (sortScores l) := by
  haveI : IsTotal HighScore scoreLe := ⟨scoreLe_total⟩
  haveI : IsTrans HighScore scoreLe := ⟨scoreLe_trans⟩
  have h := List.sorted_insertionSort scoreLe l
  exact List.Pairwise.imp (fun hab => (scoreLe_iff_keyLe _ _).mp hab) h

theorem sortedByKey_take (n : Nat) (l : List HighScore) :
    SortedByKey ((sortScores l).take n) :=
  List.Pairwise.sublist (List.take_sublist n _) (sortedByKey_sortScores l)

theorem cmpScore_eq_of_key_eq {x y : HighScore} (h : scoreKey x = scoreKey y) :
    cmpScore x y = Ordering.eq := by
  have h1 : x.attempts = y.attempts := congrArg Prod.fst h
  have h2 : x.seconds = y.seconds := congrArg Prod.snd h
  unfold cmpScore
  rw [cmpNat_eq h1, cmpSeconds_eq h2]
  rfl

theorem filter_key_orderedInsert_eq (x : HighScore) (k : Nat × Rat)
    (hx : scoreKey x = k) :
    ∀ l : List HighScore,
      (List.orderedInsert scoreLe x l).filter (fun y => decide (scoreKey y = k)) =
        x :: l.filter (fun y => decide (scoreKey y = k))
  | [] => by simp [hx]
  | y :: ys => by
    by_cases h : scoreLe x y
    · rw [List.orderedInsert, if_pos h]
      simp [List.filter_cons, hx]
    · have hgt : cmpScore x y = Ordering.gt := by
        by_contra hne
        exact h hne
      have hy : ¬ scoreKey y = k := by
        intro hk
        have heq : cmpScore x y = Ordering.eq := cmpScore_eq_of_key_eq (by rw [hx, hk])
        rw [heq] at hgt
        cases hgt
      rw [List.orderedInsert, if_neg h]
      simp [List.filter_cons, hy, filter_key_orderedInsert_eq x k hx ys]

theorem filter_key_orderedInsert_ne (x : HighScore) (k : Nat × Rat)
    (hx : ¬ scoreKey x = k) :
    ∀ l : List HighScore,
      (List.orderedInsert scoreLe x l).filter (fun y => decide (scoreKey y = k)) =
        l.filter (fun y => decide (scoreKey y = k))
  | [] => by simp [hx]
  | y :: ys => by
    by_cases h : scoreLe x y
    · rw [List.orderedInsert, if_pos h]
      simp [List.filter_cons, hx]
    · rw [List.orderedInsert, if_neg h]
      simp only [List.filter_cons]
      rw [filter_key_orderedInsert_ne x k hx ys]

theorem filter_key_sortScores (l : List HighScore) (k : Nat × Rat) :
    (sortScores l).filter (fun y => decide (scoreKey y = k)) =
      l.filter (fun y => decide (scoreKey y = k)) := by
  induction l with
  | nil => rfl
  | cons x xs ih =>
    have hstep : sortScores (x :: xs) =
        List.orderedInsert scoreLe x (sortScores xs) := rfl
    rw [hstep]
    by_cases hx : scoreKey x = k
    · rw [filter_key_orderedInsert_eq x k hx (sortScores xs), ih]
      simp [List.filter_cons, hx]
    · rw [filter_key_orderedInsert_ne x k hx (sortScores xs), ih]
      simp [List.filter_cons, hx]

theorem save_score_write_ok (score : HighScore) (st : Store)
    (old : List HighScore) (hload : load_high_scores st = Except.ok old)
    (hw : st.writable = true) :
    save_score score st =
      (Except.ok (),
        { st with file := FileState.scores ((sortScores (old ++ [score])).take 5) }) := by
  unfold save_score
  rw [hload]
  simp [hw]

theorem save_score_write_fail (score : HighScore) (st : Store)
    (old : List HighScore) (hload : load_high_scores st = Except.ok old)
    (hw : st.writable = false) :
    save_score score st = (Except.error IoErr.writeFailed, st) := by
  unfold save_score
  rw [hload]
  simp [hw]

theorem save_score_load_err (score : HighScore) (st : Store) (e : IoErr)
    (hload : load_high_scores st = Except.error e) :
    save_score score st = (Except.error e, st) := by
  unfold save_score
  rw [hload]

theorem check_guess_parse_none (g : GuessingGame) (st : Store) (elapsed : Rat)
    (now : Nat) (hp : parse_u32 g.current_guess = none) :
    check_guess g st elapsed now =
      ({ g with message := GameMessage.invalidNumber, current_guess := [] }, st) := by
  unfold check_guess
  rw [hp]

theorem check_guess_won_eq (g : GuessingGame) (st : Store) (elapsed : Rat)
    (now : Nat) (n : Nat) (hp : parse_u32 g.current_guess = some n)
    (hwon : g.game_won = true) :
    check_guess g st elapsed now = ({ g with current_guess := [] }, st) := by
  unfold check_guess
  rw [hp]
  simp [hwon]

theorem check_guess_out_eq (g : GuessingGame) (st : Store) (elapsed : Rat)
    (now : Nat) (n : Nat) (hp : parse_u32 g.current_guess = some n)
    (hwon : g.game_won = false) (hout : n < 1 ∨ n > g.difficulty) :
    check_guess g st elapsed now =
      ({ g with attempts := g.attempts + 1,
                message := GameMessage.outOfRange g.difficulty,
                current_guess := [] }, st) := by
  unfold check_guess
  rw [hp]
  simp only [hwon, Bool.false_eq_true, if_false]
  rw [if_pos hout]

theorem check_guess_lt_eq (g : GuessingGame) (st : Store) (elapsed : Rat)
    (now : Nat) (n : Nat) (hp : parse_u32 g.current_guess = some n)
    (hwon : g.game_won = false) (h1 : 1 ≤ n) (h2 : n ≤ g.difficulty)
    (hlt : n < g.secret_number) :
    check_guess g st elapsed now =
      ({ g with attempts := g.attempts + 1, message := GameMessage.higher,
                current_guess := [] }, st) := by
  unfold check_guess
  rw [hp]
  simp only [hwon, Bool.false_eq_true, if_false]
  rw [if_neg (by omega), cmpNat_lt hlt]

theorem check_guess_gt_eq (g : GuessingGame) (st : Store) (elapsed : Rat)
    (now : Nat) (n : Nat) (hp : parse_u32 g.current_guess = some n)
    (hwon : g.game_won = false) (h1 : 1 ≤ n) (h2 : n ≤ g.difficulty)
    (hgt : g.secret_number < n) :
    check_guess g st elapsed now =
      ({ g with attempts := g.attempts + 1, message := GameMessage.lower,
                current_guess := [] }, st) := by
  unfold check_guess
  rw [hp]
  simp only [hwon, Bool.false_eq_true, if_false]
  rw [if_neg (by omega), cmpNat_gt hgt]

theorem check_guess_win_fields (g : GuessingGame) (st : Store) (elapsed : Rat)
    (now : Nat) (n : Nat) (hp : parse_u32 g.current_guess = some n)
    (hwon : g.game_won = false) (h1 : 1 ≤ n) (h2 : n ≤ g.difficulty)
    (heq : n = g.secret_number) :
    (check_guess g st elapsed now).1.attempts = g.attempts + 1 ∧
    (check_guess g st elapsed now).1.game_won = true ∧
    (check_guess g st elapsed now).1.message =
      GameMessage.correct (g.attempts + 1) elapsed ∧
    (check_guess g st elapsed now).1.secret_number = g.secret_number ∧
    (check_guess g st elapsed now).2 =
      (save_score ⟨g.attempts + 1, elapsed, g.difficulty, now⟩ st).2 ∧
    (∀ e, (save_score ⟨g.attempts + 1, elapsed, g.difficulty, now⟩ st).1 =
        Except.error e →
      (check_guess g st elapsed now).1.high_scores = g.high_scores) := by
  have hcg : check_guess g st elapsed now =
      (let saved := save_score ⟨g.attempts + 1, elapsed, g.difficulty, now⟩ st
       let hs :=
         match saved.1 with
         | Except.ok _ =>
           match load_high_scores saved.2 with
           | Except.ok l => l
           | Except.error _ => []
         | Except.error _ => g.high_scores
       ({ g with attempts := g.attempts + 1, game_won := true,
                 message := GameMessage.correct (g.attempts + 1) elapsed,
                 high_scores := hs, current_guess := [] }, saved.2)) := by
    unfold check_guess
    rw [hp]
    simp only [hwon, Bool.false_eq_true, if_false]
    rw [if_neg (by omega), cmpNat_eq heq]
  rw [hcg]
  refine ⟨rfl, rfl, rfl, rfl, rfl, ?_⟩
  intro e he
  simp only [he]

theorem check_guess_secret (g : GuessingGame) (st : Store) (elapsed : Rat)
    (now : Nat) :
    (check_guess g st elapsed now).1.secret_number = g.secret_number := by
  unfold check_guess
  split
  · split
    · rfl
    · split
      · rfl
      · split <;> rfl
  · rfl

theorem check_guess_difficulty (g : GuessingGame) (st : Store) (elapsed : Rat)
    (now : Nat) :
    (check_guess g st elapsed now).1.difficulty = g.difficulty := by
  unfold check_guess
  split
  · split
    · rfl
    · split
      · rfl
      · split <;> rfl
  · rfl

theorem parse_u32_cons_neg (xs : List Char) : parse_u32 ('-' :: xs) = none := by
  have h1 : ¬ (('-' : Char) = '+') := by decide
  have h2 : Char.isDigit '-' = false := by decide
  simp [parse_u32, stripPlus, h1, h2, List.all_cons]

theorem dropWhile_ws_eq_self {cs : List Char}
    (h : cs.all (fun c => !c.isWhitespace) = true) :
    cs.dropWhile Char.isWhitespace = cs := by
  cases cs with
  | nil => rfl
  | cons c rest =>
    simp only [List.all_cons, Bool.and_eq_true, Bool.not_eq_true'] at h
    simp [List.dropWhile, h.1]

theorem trimChars_eq_self {cs : List Char}
    (h : cs.all (fun c => !c.isWhitespace) = true) :
    trimChars cs = cs := by
  unfold trimChars
  rw [dropWhile_ws_eq_self h, dropWhile_ws_eq_self (by simpa using h),
    List.reverse_reverse]

theorem not_ws_of_digit {c : Char} (h : c.isDigit = true) :
    c.isWhitespace = false := by
  cases hws : c.isWhitespace
  · rfl
  · exfalso
    have hw := hws
    simp [Char.isWhitespace] at hw
    rcases hw with ⟨⟨h1 | h1⟩ | h1⟩ | h1 <;> subst h1 <;>
      simp [Char.isDigit] at h

theorem get_guess_neg (rest : List Char) (hd : rest.all Char.isDigit = true) :
    get_guess ('-' :: rest) = GetGuessResult.err GuessErr.invalidFormat := by
  have hall : (('-' :: rest).all (fun c => !c.isWhitespace)) = true := by
    simp only [List.all_cons, Bool.and_eq_true]
    constructor
    · decide
    · rw [List.all_eq_true] at hd ⊢
      intro c hc
      simp [not_ws_of_digit (hd c hc)]
  have hlow : Char.toLower '-' = '-' := by decide
  unfold get_guess
  rw [trimChars_eq_self hall, List.map_cons, hlow]
  have hq : ¬(('-' :: rest.map Char.toLower) = "q".data ∨
      ('-' :: rest.map Char.toLower) = "quit".data) := by
    rintro (hcon | hcon)
    · have hh := congrArg List.head? hcon
      simp at hh
    · have hh := congrArg List.head? hcon
      simp at hh
  rw [if_neg hq, parse_u32_cons_neg]

/-- Claim C1: after every `save_score` call that completes (the prior store
content loads as `old` and the write succeeds), the persisted leaderboard
has length at most 5, is sorted ascending by the lexicographic key
(attempts, elapsed seconds), and is exactly the sequence a subsequent
`load_high_scores` returns. This holds for every prior content `old` and
every inserted record. -/
theorem save_score_top5_sorted (score : HighScore) (st : Store)
    (old : List HighScore) (hload : load_high_scores st = Except.ok old)
    (hw : st.writable = true) :
    (save_score score st).1 = Except.ok () ∧
    (save_score score st).2.file =
      FileState.scores ((sortScores (old ++ [score])).take 5) ∧
    load_high_scores (save_score score st).2 =
      Except.ok ((sortScores (old ++ [score])).take 5) ∧
    ((sortScores (old ++ [score])).take 5).length ≤ 5 ∧
    SortedByKey ((sortScores (old ++ [score])).take 5) := by
  rw [save_score_write_ok score st old hload hw]
  refine ⟨rfl, rfl, ?_, ?_, ?_⟩
  · unfold load_high_scores
    rfl
  · rw [List.length_take]
    exact Nat.min_le_left _ _
  · exact sortedByKey_take 5 _

theorem save_score_top5_sorted_witness :
    (save_score ⟨3, 25/2, 100, 0⟩ ⟨FileState.absent, true⟩).1 = Except.ok () ∧
    (save_score ⟨3, 25/2, 100, 0⟩ ⟨FileState.absent, true⟩).2.file =
      FileState.scores ((sortScores ([] ++ [⟨3, 25/2, 100, 0⟩])).take 5) ∧
    load_high_scores (save_score ⟨3, 25/2, 100, 0⟩ ⟨FileState.absent, true⟩).2 =
      Except.ok ((sortScores ([] ++ [⟨3, 25/2, 100, 0⟩])).take 5) ∧
    ((sortScores ([] ++ [⟨3, 25/2, 100, 0⟩])).take 5).length ≤ 5 ∧
    SortedByKey ((sortScores ([] ++ [⟨3, 25/2, 100, 0⟩])).take 5) :=
  save_score_top5_sorted ⟨3, 25/2, 100, 0⟩ ⟨FileState.absent, true⟩ [] rfl rfl

/-- Claim C2: on a round not yet won, a guess that parses and lies in
[1, difficulty] increments `attempts` by exactly one; it yields the
Higher message when below the secret, the Lower message when above, and on
equality sets the won flag and reports the incremented attempt count and
the elapsed seconds since the round started. -/
theorem check_guess_valid_guess (g : GuessingGame) (st : Store)
    (elapsed : Rat) (now : Nat) (n : Nat)
    (hwon : g.game_won = false) (hp : parse_u32 g.current_guess = some n)
    (h1 : 1 ≤ n) (h2 : n ≤ g.difficulty) :
    (check_guess g st elapsed now).1.attempts = g.attempts + 1 ∧
    (n < g.secret_number →
      (check_guess g st elapsed now).1.message = GameMessage.higher ∧
      (check_guess g st elapsed now).1.game_won = false) ∧
    (g.secret_number < n →
      (check_guess g st elapsed now).1.message = GameMessage.lower ∧
      (check_guess g st elapsed now).1.game_won = false) ∧
    (n = g.secret_number →
      (check_guess g st elapsed now).1.game_won = true ∧
      (check_guess g st elapsed now).1.message =
        GameMessage.correct (g.attempts + 1) elapsed) := by
  refine ⟨?_, ?_, ?_, ?_⟩
  · rcases Nat.lt_trichotomy n g.secret_number with hlt | heq | hgt
    · rw [check_guess_lt_eq g st elapsed now n hp hwon h1 h2 hlt]
    · exact (check_guess_win_fields g st elapsed now n hp hwon h1 h2 heq).1
    · rw [check_guess_gt_eq g st elapsed now n hp hwon h1 h2 hgt]
  · intro hlt
    rw [check_guess_lt_eq g st elapsed now n hp hwon h1 h2 hlt]
    exact ⟨rfl, hwon⟩
  · intro hgt
    rw [check_guess_gt_eq g st elapsed now n hp hwon h1 h2 hgt]
    exact ⟨rfl, hwon⟩
  · intro heq
    have h := check_guess_win_fields g st elapsed now n hp hwon h1 h2 heq
    exact ⟨h.2.1, h.2.2.1⟩

theorem check_guess_valid_guess_witness :
    (check_guess ⟨50, ['5', '0'], GameMessage.prompt 100, 0, 100, false, []⟩
        ⟨FileState.absent, true⟩ 3 1).1.attempts = 0 + 1 ∧
    (check_guess ⟨50, ['5', '0'], GameMessage.prompt 100, 0, 100, false, []⟩
        ⟨FileState.absent, true⟩ 3 1).1.game_won = true ∧
    (check_guess ⟨50, ['5', '0'], GameMessage.prompt 100, 0, 100, false, []⟩
        ⟨FileState.absent, true⟩ 3 1).1.message = GameMessage.correct (0 + 1) 3 := by
  have h := check_guess_valid_guess
    ⟨50, ['5', '0'], GameMessage.prompt 100, 0, 100, false, []⟩
    ⟨FileState.absent, true⟩ 3 1 50 rfl (by decide) (by decide) (by decide)
  exact ⟨h.1, (h.2.2.2 rfl).1, (h.2.2.2 rfl).2⟩

/-- Claim C3: an input that does not parse as an unsigned integer yields
the invalid-number message, does not increment `attempts`, and leaves the
round state (secret, attempts, won flag) and the store unchanged. -/
theorem check_guess_invalid_format (g : GuessingGame) (st : Store)
    (elapsed : Rat) (now : Nat) (hp : parse_u32 g.current_guess = none) :
    (check_guess g st elapsed now).1.secret_number = g.secret_number ∧
    (check_guess g st elapsed now).1.attempts = g.attempts ∧
    (check_guess g st elapsed now).1.game_won = g.game_won ∧
    (check_guess g st elapsed now).1.message = GameMessage.invalidNumber ∧
    (check_guess g st elapsed now).2 = st := by
  rw [check_guess_parse_none g st elapsed now hp]
  exact ⟨rfl, rfl, rfl, rfl, rfl⟩

theorem check_guess_invalid_format_witness :
    (check_guess ⟨42, ['a', 'b', 'c'], GameMessage.prompt 100, 0, 100, false, []⟩
        ⟨FileState.absent, true⟩ 1 0).1.attempts = 0 ∧
    (check_guess ⟨42, ['a', 'b', 'c'], GameMessage.prompt 100, 0, 100, false, []⟩
        ⟨FileState.absent, true⟩ 1 0).1.message = GameMessage.invalidNumber := by
  have h := check_guess_invalid_format
    ⟨42, ['a', 'b', 'c'], GameMessage.prompt 100, 0, 100, false, []⟩
    ⟨FileState.absent, true⟩ 1 0 (by decide)
  exact ⟨h.2.1, h.2.2.2.1⟩

/-- Claim C4: on a round not yet won, a guess that parses but lies outside
[1, difficulty] yields the out-of-range message and increments `attempts`
by exactly one (the turn is charged), while the secret, the won flag and
the store are unchanged. -/
theorem check_guess_out_of_range_charged (g : GuessingGame) (st : Store)
    (elapsed : Rat) (now : Nat) (n : Nat)
    (hwon : g.game_won = false) (hp : parse_u32 g.current_guess = some n)
    (hout : n < 1 ∨ n > g.difficulty) :
    (check_guess g st elapsed now).1.attempts = g.attempts + 1 ∧
    (check_guess g st elapsed now).1.message =
      GameMessage.outOfRange g.difficulty ∧
    (check_guess g st elapsed now).1.secret_number = g.secret_number ∧
    (check_guess g st elapsed now).1.game_won = false ∧
    (check_guess g st elapsed now).2 = st := by
  rw [check_guess_out_eq g st elapsed now n hp hwon hout]
  exact ⟨rfl, rfl, rfl, hwon, rfl⟩

theorem check_guess_out_of_range_charged_witness :
    (check_guess ⟨42, ['1', '5', '0'], GameMessage.prompt 100, 0, 100, false, []⟩
        ⟨FileState.absent, true⟩ 1 0).1.attempts = 0 + 1 ∧
    (check_guess ⟨42, ['1', '5', '0'], GameMessage.prompt 100, 0, 100, false, []⟩
        ⟨FileState.absent, true⟩ 1 0).1.message = GameMessage.outOfRange 100 := by
  have h := check_guess_out_of_range_charged
    ⟨42, ['1', '5', '0'], GameMessage.prompt 100, 0, 100, false, []⟩
    ⟨FileState.absent, true⟩ 1 0 150 rfl (by decide) (by decide)
  exact ⟨h.1, h.2.1⟩

/-- Claim C5 counterexample: with an unwritable empty store, the winning
`check_guess` call gets the write error back from `save_score`, but the
leaderboard computed before the failed write is NOT returned to the
caller: the `high_scores` field keeps its previous (empty) value rather
than the computed list, and the message is the plain win message with no
indication that persistence failed. -/
theorem persist_failure_leaderboard_not_returned :
    (save_score ⟨1, 2, 100, 7⟩ ⟨FileState.absent, false⟩).1 =
      Except.error IoErr.writeFailed ∧
    (sortScores ([] ++ [⟨1, 2, 100, 7⟩])).take 5 = [⟨1, 2, 100, 7⟩] ∧
    (check_guess ⟨5, ['5'], GameMessage.prompt 100, 0, 100, false, []⟩
        ⟨FileState.absent, false⟩ 2 7).1.high_scores = [] ∧
    (check_guess ⟨5, ['5'], GameMessage.prompt 100, 0, 100, false, []⟩
        ⟨FileState.absent, false⟩ 2 7).1.high_scores ≠
      [(⟨1, 2, 100, 7⟩ : HighScore)] ∧
    (check_guess ⟨5, ['5'], GameMessage.prompt 100, 0, 100, false, []⟩
        ⟨FileState.absent, false⟩ 2 7).1.message = GameMessage.correct 1 2 := by
  exact ⟨rfl, by decide, by decide, by decide, by decide⟩

/-- Claim C5 (amended): when the final write of a `save_score` call fails,
the error is surfaced as the write-failed io error and nothing is
persisted (the store is unchanged); the caller `check_guess` swallows the
error: its `high_scores` keep their previous value (the computed
leaderboard is discarded) and the message is the normal win message, with
no separate indication that persistence failed. -/
theorem persist_failure_error_surfaced (g : GuessingGame) (st : Store)
    (elapsed : Rat) (now : Nat) (n : Nat) (old : List HighScore)
    (hwon : g.game_won = false) (hp : parse_u32 g.current_guess = some n)
    (h1 : 1 ≤ n) (h2 : n ≤ g.difficulty) (heq : n = g.secret_number)
    (hload : load_high_scores st = Except.ok old) (hw : st.writable = false) :
    save_score ⟨g.attempts + 1, elapsed, g.difficulty, now⟩ st =
      (Except.error IoErr.writeFailed, st) ∧
    (check_guess g st elapsed now).1.high_scores = g.high_scores ∧
    (check_guess g st elapsed now).1.game_won = true ∧
    (check_guess g st elapsed now).1.message =
      GameMessage.correct (g.attempts + 1) elapsed ∧
    (check_guess g st elapsed now).2 = st := by
  have hsave := save_score_write_fail ⟨g.attempts + 1, elapsed, g.difficulty, now⟩
    st old hload hw
  have hf := check_guess_win_fields g st elapsed now n hp hwon h1 h2 heq
  refine ⟨hsave, ?_, hf.2.1, hf.2.2.1, ?_⟩
  · exact hf.2.2.2.2.2 IoErr.writeFailed (by rw [hsave])
  · rw [hf.2.2.2.2.1, hsave]

theorem persist_failure_error_surfaced_witness :
    save_score ⟨0 + 1, 2, 100, 7⟩ ⟨FileState.absent, false⟩ =
      (Except.error IoErr.writeFailed, ⟨FileState.absent, false⟩) ∧
    (check_guess ⟨5, ['5'], GameMessage.prompt 100, 0, 100, false, []⟩
        ⟨FileState.absent, false⟩ 2 7).1.high_scores = [] ∧
    (check_guess ⟨5, ['5'], GameMessage.prompt 100, 0, 100, false, []⟩
        ⟨FileState.absent, false⟩ 2 7).1.game_won = true ∧
    (check_guess ⟨5, ['5'], GameMessage.prompt 100, 0, 100, false, []⟩
        ⟨FileState.absent, false⟩ 2 7).1.message = GameMessage.correct (0 + 1) 2 ∧
    (check_guess ⟨5, ['5'], GameMessage.prompt 100, 0, 100, false, []⟩
        ⟨FileState.absent, false⟩ 2 7).2 = ⟨FileState.absent, false⟩ :=
  persist_failure_error_surfaced
    ⟨5, ['5'], GameMessage.prompt 100, 0, 100, false, []⟩
    ⟨FileState.absent, false⟩ 2 7 5 []
    rfl (by decide) (by decide) (by decide) (by decide) rfl rfl

/-- Claim C6 counterexample: a store whose persisted bytes deserialize to
the empty list also loads as the empty leaderboard (as a success), so a
successful empty load does not imply that no persisted state exists: the
claimed equivalence fails at this store. -/
theorem load_empty_not_only_when_absent :
    load_high_scores ⟨FileState.scores [], true⟩ =
      Except.ok ([] : List HighScore) ∧
    (Store.mk (FileState.scores []) true).file ≠ FileState.absent := by
  exact ⟨rfl, by decide⟩

/-- Claim C6 (amended): `load_high_scores` returns the empty leaderboard
as a success exactly when either no persisted state exists or the
persisted bytes deserialize to the empty sequence; bytes that fail to
deserialize give the corrupt-store error; bytes that deserialize give the
stored sequence. -/
theorem load_high_scores_cases :
    (∀ st : Store, load_high_scores st = Except.ok ([] : List HighScore) ↔
      (st.file = FileState.absent ∨ st.file = FileState.scores [])) ∧
    (∀ st : Store, st.file = FileState.corrupt →
      load_high_scores st = Except.error IoErr.corruptStore) ∧
    (∀ (st : Store) (l : List HighScore), st.file = FileState.scores l →
      load_high_scores st = Except.ok l) := by
  refine ⟨?_, ?_, ?_⟩
  · intro st
    unfold load_high_scores
    cases hf : st.file <;> simp [hf]
  · intro st hf
    unfold load_high_scores
    rw [hf]
  · intro st l hf
    unfold load_high_scores
    rw [hf]

theorem load_high_scores_cases_witness :
    load_high_scores ⟨FileState.corrupt, true⟩ =
      Except.error IoErr.corruptStore ∧
    load_high_scores ⟨FileState.scores [⟨3, 10, 100, 0⟩], true⟩ =
      Except.ok [(⟨3, 10, 100, 0⟩ : HighScore)] :=
  ⟨load_high_scores_cases.2.1 ⟨FileState.corrupt, true⟩ rfl,
   load_high_scores_cases.2.2 ⟨FileState.scores [⟨3, 10, 100, 0⟩], true⟩
     [⟨3, 10, 100, 0⟩] rfl⟩

/-- Claim C7: the ranking sort used by `save_score` is stable: for every
key, the records carrying that key appear in the sorted output in exactly
their input order; in particular inserting A then B with identical keys
(attempts 3, seconds 10) through two `save_score` calls retains both with
A preceding B. -/
theorem sort_by_is_stable :
    (∀ (l : List HighScore) (k : Nat × Rat),
      (sortScores l).filter (fun y => decide (scoreKey y = k)) =
        l.filter (fun y => decide (scoreKey y = k))) ∧
    (save_score ⟨3, 10, 50, 1⟩
        (save_score ⟨3, 10, 100, 0⟩ ⟨FileState.absent, true⟩).2).2.file =
      FileState.scores [⟨3, 10, 100, 0⟩, ⟨3, 10, 50, 1⟩] := by
  constructor
  · exact filter_key_sortScores
  · decide

/-- Claim C8: no sequence of guess submissions, whatever the raw inputs,
ever changes the secret: after any `play_guesses` run the secret equals
the secret the round started with. -/
theorem secret_never_changes (g : GuessingGame) (st : Store)
    (steps : List (List Char × Rat × Nat)) :
    (play_guesses g st steps).1.secret_number = g.secret_number := by
  induction steps generalizing g st with
  | nil => rfl
  | cons s rest ih =>
    obtain ⟨input, elapsed, now⟩ := s
    have hstep : play_guesses g st ((input, elapsed, now) :: rest) =
        play_guesses (submit_guess g st input elapsed now).1
          (submit_guess g st input elapsed now).2 rest := rfl
    rw [hstep, ih]
    exact check_guess_secret _ _ _ _

/-- Claim C9: once the round is won, any further submission leaves the
secret, the attempt count and the won flag unchanged and does not touch
the store; only `new_game` produces a different round. -/
theorem submit_after_won_noop (g : GuessingGame) (st : Store)
    (input : List Char) (elapsed : Rat) (now : Nat)
    (hwon : g.game_won = true) :
    (submit_guess g st input elapsed now).1.secret_number = g.secret_number ∧
    (submit_guess g st input elapsed now).1.attempts = g.attempts ∧
    (submit_guess g st input elapsed now).1.game_won = true ∧
    (submit_guess g st input elapsed now).2 = st := by
  unfold submit_guess
  cases hp : parse_u32 input with
  | none =>
    rw [check_guess_parse_none { g with current_guess := input } st elapsed now hp]
    exact ⟨rfl, rfl, hwon, rfl⟩
  | some n =>
    rw [check_guess_won_eq { g with current_guess := input } st elapsed now n hp hwon]
    exact ⟨rfl, rfl, hwon, rfl⟩

theorem submit_after_won_noop_witness :
    (submit_guess ⟨5, ['7'], GameMessage.correct 1 2, 1, 100, true, []⟩
        ⟨FileState.absent, true⟩ ['3'] 9 9).1.secret_number = 5 ∧
    (submit_guess ⟨5, ['7'], GameMessage.correct 1 2, 1, 100, true, []⟩
        ⟨FileState.absent, true⟩ ['3'] 9 9).1.attempts = 1 ∧
    (submit_guess ⟨5, ['7'], GameMessage.correct 1 2, 1, 100, true, []⟩
        ⟨FileState.absent, true⟩ ['3'] 9 9).1.game_won = true ∧
    (submit_guess ⟨5, ['7'], GameMessage.correct 1 2, 1, 100, true, []⟩
        ⟨FileState.absent, true⟩ ['3'] 9 9).2 = ⟨FileState.absent, true⟩ :=
  submit_after_won_noop ⟨5, ['7'], GameMessage.correct 1 2, 1, 100, true, []⟩
    ⟨FileState.absent, true⟩ ['3'] 9 9 rfl

/-- Claim C10: an input denoting a negative integer (a minus sign followed
by digits) fails the unsigned parse, so `check_guess` reports the
invalid-number message without charging an attempt or touching the round
state or the store, and the CLI `get_guess` reports the format error, not
the range error. -/
theorem negative_guess_uncharged (rest : List Char) (g : GuessingGame)
    (st : Store) (elapsed : Rat) (now : Nat)
    (_hne : rest ≠ []) (hd : rest.all Char.isDigit = true) :
    parse_u32 ('-' :: rest) = none ∧
    (submit_guess g st ('-' :: rest) elapsed now).1.attempts = g.attempts ∧
    (submit_guess g st ('-' :: rest) elapsed now).1.message =
      GameMessage.invalidNumber ∧
    (submit_guess g st ('-' :: rest) elapsed now).1.game_won = g.game_won ∧
    (submit_guess g st ('-' :: rest) elapsed now).2 = st ∧
    get_guess ('-' :: rest) = GetGuessResult.err GuessErr.invalidFormat := by
  have hp : parse_u32 ('-' :: rest) = none := parse_u32_cons_neg rest
  unfold submit_guess
  rw [check_guess_parse_none { g with current_guess := '-' :: rest } st elapsed now hp]
  exact ⟨hp, rfl, rfl, rfl, rfl, get_guess_neg rest hd⟩

theorem negative_guess_uncharged_witness :
    parse_u32 ['-', '5'] = none ∧
    (submit_guess ⟨42, [], GameMessage.prompt 100, 0, 100, false, []⟩
        ⟨FileState.absent, true⟩ ['-', '5'] 1 0).1.attempts = 0 ∧
    (submit_guess ⟨42, [], GameMessage.prompt 100, 0, 100, false, []⟩
        ⟨FileState.absent, true⟩ ['-', '5'] 1 0).1.message =
      GameMessage.invalidNumber ∧
    (submit_guess ⟨42, [], GameMessage.prompt 100, 0, 100, false, []⟩
        ⟨FileState.absent, true⟩ ['-', '5'] 1 0).1.game_won = false ∧
    (submit_guess ⟨42, [], GameMessage.prompt 100, 0, 100, false, []⟩
        ⟨FileState.absent, true⟩ ['-', '5'] 1 0).2 = ⟨FileState.absent, true⟩ ∧
    get_guess ['-', '5'] = GetGuessResult.err GuessErr.invalidFormat :=
  negative_guess_uncharged ['5']
    ⟨42, [], GameMessage.prompt 100, 0, 100, false, []⟩
    ⟨FileState.absent, true⟩ 1 0 (by decide) (by decide)
